import Mathlib

/-!
Verification of the `yieldpoint` Go package (AlexsanderHamir/yieldpoint)
against its natural-language specification.

The package keeps one process-wide `atomic.Int32` counter (`HighPriorityCount`)
of currently open high-priority sections, a mutex + condition variable
(`Mu`/`Cond`) used to park waiters, a process-wide self-priority flag stored in
an `atomic.Value` (`IsHighPriority` in the priority-flag file), two mutable
configuration values (`DefaultYieldDuration`, `SpinWaitIterations`) and an
optional trace callback (`traceFunc` in trace.go).

The repository contains two revisions of yieldpoint.go; the revision embedded
here is the one that defines `MaybeYieldFast`, `SetDefaultYieldDuration` and
the sleeping `MaybeYield`, since it is the only revision against which the
package's own test file (yieldpoint_test.go, which calls `MaybeYieldFast` and
`SetDefaultYieldDuration`) and the examples compile.

Side effects that matter to the spec (scheduler yields, sleeps, lock traffic,
condition-variable broadcasts, trace-callback invocations) are modelled as an
explicit effect list returned next to the updated state.  Blocking loops
(`WaitIfActive`, the fallback of `WaitIfActiveFast`, the polling loop of
`WaitIfActiveWithContext`) are modelled as functions over the finite sequence
of values the loop observes (counter loads, resolved `select` branches); a
`none` result models an execution that has not yet terminated within the
observed sequence.
-/

namespace YieldPoint

/-- Observable side effects of the primitives. -/
inductive Effect where
  | gosched : Effect
  | sleep (d : Nat) : Effect
  | lock : Effect
  | unlock : Effect
  | condWait : Effect
  | broadcast : Effect
  | traceCall (reason : String) : Effect
  deriving DecidableEq, Repr

/-- `HighPriorityCount` is an `atomic.Int32`: additions wrap at 2^31.
`wrap32 x` is `x` reduced to the int32 range `[-2^31, 2^31)`. -/
def wrap32 (x : Int) : Int := (x + 2 ^ 31) % 2 ^ 32 - 2 ^ 31

/-- The process-wide state of the package: the signal counter
(`HighPriorityCount`, int32), the self-priority flag (`IsHighPriority`, an
`atomic.Value` that starts empty, hence `Option Bool`), the two configuration
values, and whether a trace callback is currently installed. -/
structure YPState where
  highPriorityCount : Int
  selfPriority : Option Bool
  defaultYieldDuration : Nat
  spinWaitIterations : Int
  traceInstalled : Bool
  deriving DecidableEq, Repr

/-- Initial process state: counter 0, flag unset, `DefaultYieldDuration`
= 1ms (in nanoseconds), `SpinWaitIterations` = 1000, no trace callback. -/
def initState : YPState :=
  { highPriorityCount := 0
    selfPriority := none
    defaultYieldDuration := 1000000
    spinWaitIterations := 1000
    traceInstalled := false }

/-- `EnterHighPriority`: `HighPriorityCount.Add(1)`. -/
def EnterHighPriority (s : YPState) : YPState × List Effect :=
  ({ s with highPriorityCount := wrap32 (s.highPriorityCount + 1) }, [])

/-- `ExitHighPriority`: `count := HighPriorityCount.Add(-1)`; if `count == 0`
then lock, broadcast, unlock; else if `count < 0` then `HighPriorityCount.Store(0)`. -/
def ExitHighPriority (s : YPState) : YPState × List Effect :=
  let count := wrap32 (s.highPriorityCount - 1)
  if count = 0 then
    ({ s with highPriorityCount := count },
     [Effect.lock, Effect.broadcast, Effect.unlock])
  else if count < 0 then
    ({ s with highPriorityCount := 0 }, [])
  else
    ({ s with highPriorityCount := count }, [])

/-- `IsHighPriorityActive`: `HighPriorityCount.Load() > 0`. -/
def IsHighPriorityActive (s : YPState) : Bool :=
  decide (0 < s.highPriorityCount)

/-- `MaybeYield`: if `HighPriorityCount.Load() > 0` then `runtime.Gosched()`
followed by `time.Sleep(DefaultYieldDuration)`; otherwise return at once. -/
def MaybeYield (s : YPState) : YPState × List Effect :=
  if 0 < s.highPriorityCount then
    (s, [Effect.gosched, Effect.sleep s.defaultYieldDuration])
  else
    (s, [])

/-- `MaybeYieldFast`: if `HighPriorityCount.Load() > 0` then `runtime.Gosched()`
only; no sleep. -/
def MaybeYieldFast (s : YPState) : YPState × List Effect :=
  if 0 < s.highPriorityCount then (s, [Effect.gosched]) else (s, [])

/-- `SetHighPriority(high bool)`: `IsHighPriority.Store(high)`. -/
def SetHighPriority (high : Bool) (s : YPState) : YPState :=
  { s with selfPriority := some high }

/-- `GetHighPriority`: `IsHighPriority.Load()` with a type assertion that
falls back to `false` when the value was never stored. -/
def GetHighPriority (s : YPState) : Bool :=
  s.selfPriority.getD false

/-- `SetDefaultYieldDuration(d)`: plain assignment to the global. -/
def SetDefaultYieldDuration (d : Nat) (s : YPState) : YPState :=
  { s with defaultYieldDuration := d }

/-- `SetSpinWaitIterations(n)`: plain assignment to the global. -/
def SetSpinWaitIterations (n : Int) (s : YPState) : YPState :=
  { s with spinWaitIterations := n }

/-- `SetTraceFunc(fn)`: `traceFunc.Store(fn)`; `fn = nil` clears the callback.
Only the presence of a callback matters to the protocol, so it is modelled as
a boolean. -/
def SetTraceFunc (installed : Bool) (s : YPState) : YPState :=
  { s with traceInstalled := installed }

/-- `traceYieldEvent(reason, duration)` from trace.go: if a callback is
installed, build a `YieldEvent` and invoke the callback (the invocation is the
`traceCall` effect); otherwise do nothing.  No function of the package ever
calls `traceYieldEvent`. -/
def traceYieldEvent (s : YPState) (reason : String) (_duration : Nat) : List Effect :=
  if s.traceInstalled then [Effect.traceCall reason] else []

/-- Number of trace-callback invocations in an effect list. -/
def countTraceCalls (es : List Effect) : Nat :=
  es.countP fun e => match e with | Effect.traceCall _ => true | _ => false

end YieldPoint

namespace YieldPoint

/-! ## Sequences of enter/exit calls (claims C1, C2) -/

/-- A call to one of the two priority-section operations. -/
inductive PCall where
  | enter : PCall
  | exit : PCall
  deriving DecidableEq, Repr

/-- Run a sequence of enter/exit calls, threading the state. -/
def runCalls (calls : List PCall) (s : YPState) : YPState :=
  calls.foldl
    (fun t c => match c with
      | PCall.enter => (EnterHighPriority t).1
      | PCall.exit => (ExitHighPriority t).1) s

/-- Number of `EnterHighPriority` calls in the sequence. -/
def entersCount : List PCall → Nat
  | [] => 0
  | PCall.enter :: r => entersCount r + 1
  | PCall.exit :: r => entersCount r

/-- Number of `ExitHighPriority` calls in the sequence. -/
def exitsCount : List PCall → Nat
  | [] => 0
  | PCall.enter :: r => exitsCount r
  | PCall.exit :: r => exitsCount r + 1

/-- Net-open count of the sequence: enters minus exits. -/
def netOpen (calls : List PCall) : Int :=
  (entersCount calls : Int) - (exitsCount calls : Int)

/-- `balancedFrom b calls` holds when, starting from a running balance `b`,
no prefix of `calls` performs an exit while the balance is zero: every exit
matches an earlier enter. -/
def balancedFrom (b : Int) : List PCall → Bool
  | [] => true
  | PCall.enter :: r => balancedFrom (b + 1) r
  | PCall.exit :: r => decide (0 < b) && balancedFrom (b - 1) r

/-! ## Blocking wait primitives as functions of observed counter loads

`WaitIfActive` and `WaitIfActiveFast` read the shared counter repeatedly.
A run of either loop is determined by the successive values those loads
return, so each is embedded as a function of that observation sequence.
`none` models a run that has not terminated within the observed sequence. -/

/-- `WaitIfActive`: `for HighPriorityCount.Load() > 0 { Mu.Lock(); Cond.Wait();
Mu.Unlock() }`.  One observation is consumed per loop check. -/
def WaitIfActive : List Int → Option (List Effect)
  | [] => none
  | c :: r =>
    if 0 < c then
      (WaitIfActive r).map fun es => Effect.lock :: Effect.condWait :: Effect.unlock :: es
    else
      some []

/-- The mutex-based fallback of `WaitIfActiveFast`: with the lock held,
`for HighPriorityCount.Load() > 0 { Cond.Wait() }`. -/
def fastFallback : List Int → Option (List Effect)
  | [] => none
  | c :: r =>
    if 0 < c then (fastFallback r).map fun es => Effect.condWait :: es
    else some []

/-- The spin phase of `WaitIfActiveFast` with `n` iterations left:
`if HighPriorityCount.Load() == 0 { return }; runtime.Gosched()`, and on spin
exhaustion `Mu.Lock(); for HighPriorityCount.Load() > 0 { Cond.Wait() };
Mu.Unlock()`. -/
def waitFastAux : Nat → List Int → Option (List Effect)
  | 0, obs => (fastFallback obs).map fun es => Effect.lock :: es ++ [Effect.unlock]
  | _ + 1, [] => none
  | n + 1, c :: r =>
    if c = 0 then some []
    else (waitFastAux n r).map fun es => Effect.gosched :: es

/-- `WaitIfActiveFast`: `for range SpinWaitIterations` spin iterations, then
the mutex-based fallback.  A Go `for range n` with `n <= 0` runs zero
iterations, hence `Int.toNat`. -/
def WaitIfActiveFast (spin : Int) (obs : List Int) : Option (List Effect) :=
  waitFastAux spin.toNat obs

/-! ## Context-aware primitives

`context.Context` cancellation is modelled by a `CtxError` (what `ctx.Err()`
returns once the context has fired) and, for the non-blocking variant, a
boolean saying whether the context had fired at call time.  The polling loop
of `WaitIfActiveWithContext` is embedded over the sequence of resolved
`select` branches: each loop iteration either took the `ctx.Done()` branch or
received a ticker tick and then loaded the counter. -/

/-- The two values `ctx.Err()` can take once a context has fired. -/
inductive CtxError where
  | canceled : CtxError
  | deadlineExceeded : CtxError
  deriving DecidableEq, Repr

/-- Result of a context-aware operation: `ok` models a `nil` error return. -/
inductive CtxResult where
  | ok : CtxResult
  | err (e : CtxError) : CtxResult
  deriving DecidableEq, Repr

/-- `MaybeYieldWithContext`: `select` with a `default` branch — if
`ctx.Done()` is ready the error branch is taken, otherwise `MaybeYield()`
runs and `nil` is returned. -/
def MaybeYieldWithContext (ctxDone : Bool) (e : CtxError) (s : YPState) :
    CtxResult × YPState × List Effect :=
  if ctxDone then (CtxResult.err e, s, [])
  else (CtxResult.ok, (MaybeYield s).1, (MaybeYield s).2)

/-- One resolved iteration of the `select` in `WaitIfActiveWithContext`:
either the `ctx.Done()` branch fired, or a ticker tick was received and the
counter load returned `c`. -/
inductive SelectOutcome where
  | ctxDone : SelectOutcome
  | tick (c : Int) : SelectOutcome
  deriving DecidableEq, Repr

/-- `WaitIfActiveWithContext`: loop on the 1ms ticker; on `ctx.Done()` return
`ctx.Err()`, on a tick return `nil` when the loaded counter is zero.  The
second component collects the counter loads the call performed. -/
def WaitIfActiveWithContext (e : CtxError) :
    List SelectOutcome → Option CtxResult × List Int
  | [] => (none, [])
  | SelectOutcome.ctxDone :: _ => (some (CtxResult.err e), [])
  | SelectOutcome.tick c :: rest =>
    if c = 0 then (some CtxResult.ok, [c])
    else
      ((WaitIfActiveWithContext e rest).1, c :: (WaitIfActiveWithContext e rest).2)

/-- A zero counter load happens on a tick before any `ctx.Done()` branch is
taken. -/
def zeroTickFirst : List SelectOutcome → Bool
  | [] => false
  | SelectOutcome.ctxDone :: _ => false
  | SelectOutcome.tick c :: r => decide (c = 0) || zeroTickFirst r

/-- The `ctx.Done()` branch is taken before any zero counter load. -/
def ctxDoneFirst : List SelectOutcome → Bool
  | [] => false
  | SelectOutcome.ctxDone :: _ => true
  | SelectOutcome.tick c :: r => decide (c ≠ 0) && ctxDoneFirst r

/-! ## Operation traces (claims C3, C8)

All state-mutating entry points of the package, as a step machine, to talk
about every reachable state. -/

/-- A call to one of the package's state-mutating entry points. -/
inductive Op where
  | enterHP : Op
  | exitHP : Op
  | maybeYield : Op
  | maybeYieldFast : Op
  | setHighPriority (b : Bool) : Op
  | setTraceFunc (installed : Bool) : Op
  | setDefaultYieldDuration (d : Nat) : Op
  | setSpinWaitIterations (n : Int) : Op
  deriving DecidableEq, Repr

/-- Apply one operation, returning the new state and the effects emitted. -/
def applyOp : Op → YPState → YPState × List Effect
  | Op.enterHP, s => EnterHighPriority s
  | Op.exitHP, s => ExitHighPriority s
  | Op.maybeYield, s => MaybeYield s
  | Op.maybeYieldFast, s => MaybeYieldFast s
  | Op.setHighPriority b, s => (SetHighPriority b s, [])
  | Op.setTraceFunc b, s => (SetTraceFunc b s, [])
  | Op.setDefaultYieldDuration d, s => (SetDefaultYieldDuration d s, [])
  | Op.setSpinWaitIterations n, s => (SetSpinWaitIterations n s, [])

/-- Run a sequence of operations from a state, threading the state. -/
def runOps (ops : List Op) (s : YPState) : YPState :=
  ops.foldl (fun t op => (applyOp op t).1) s

/-- Apply a sequence of `SetHighPriority` calls in order. -/
def applySets (bs : List Bool) (s : YPState) : YPState :=
  bs.foldl (fun t b => SetHighPriority b t) s

/-- The int32 value range of `HighPriorityCount`. -/
def inRange32 (c : Int) : Prop := -(2 ^ 31) ≤ c ∧ c < 2 ^ 31

end YieldPoint

namespace YieldPoint

/-! ## Helper lemmas -/

lemma wrap32_mem (x : Int) : -(2 ^ 31) ≤ wrap32 x ∧ wrap32 x < 2 ^ 31 := by
  unfold wrap32
  have hb : ((2 : Int) ^ 32) ≠ 0 := by norm_num
  have h1 : (0 : Int) ≤ (x + 2 ^ 31) % 2 ^ 32 := Int.emod_nonneg _ hb
  have h2 : (x + 2 ^ 31) % 2 ^ 32 < 2 ^ 32 :=
    Int.emod_lt_of_pos _ (by norm_num)
  constructor <;> [linarith; nlinarith]

lemma wrap32_eq_self {x : Int} (h1 : -(2 ^ 31) ≤ x) (h2 : x < 2 ^ 31) :
    wrap32 x = x := by
  unfold wrap32
  have hlo : (0 : Int) ≤ x + 2 ^ 31 := by linarith
  have hhi : x + 2 ^ 31 < 2 ^ 32 := by nlinarith
  rw [Int.emod_eq_of_lt hlo hhi]
  ring

lemma wrap32_sub_one_eq_zero_iff {c : Int} (h : inRange32 c) :
    wrap32 (c - 1) = 0 ↔ c = 1 := by
  obtain ⟨hlo, hhi⟩ := h
  by_cases hc : c = -(2 ^ 31)
  · subst hc
    have hv : wrap32 (-(2 ^ 31) - 1) = 2 ^ 31 - 1 := by decide
    rw [hv]
    constructor <;> intro h' <;> [norm_num at h'; norm_num at h']
  · have h1 : -(2 ^ 31) ≤ c - 1 := by omega
    have h2 : c - 1 < 2 ^ 31 := by omega
    rw [wrap32_eq_self h1 h2]
    omega

lemma runCalls_nil (s : YPState) : runCalls [] s = s := rfl

lemma runCalls_cons (c : PCall) (r : List PCall) (s : YPState) :
    runCalls (c :: r) s =
      runCalls r (match c with
        | PCall.enter => (EnterHighPriority s).1
        | PCall.exit => (ExitHighPriority s).1) := rfl

lemma enter_counter (s : YPState) :
    (EnterHighPriority s).1.highPriorityCount = wrap32 (s.highPriorityCount + 1) := rfl

lemma exit_counter_of_pos (s : YPState) (h : 0 < s.highPriorityCount)
    (hlt : s.highPriorityCount < 2 ^ 31) :
    (ExitHighPriority s).1.highPriorityCount = s.highPriorityCount - 1 := by
  have hw : wrap32 (s.highPriorityCount - 1) = s.highPriorityCount - 1 :=
    wrap32_eq_self (by omega) (by omega)
  simp only [ExitHighPriority, hw]
  split
  · rfl
  · split
    · exfalso; omega
    · rfl

/-- Core invariant behind C1: starting from a prefix-balanced state whose
enters stay below the int32 limit, running the calls leaves the counter at
the starting value plus the sequence's net-open count (no clamp and no wrap
ever fires). -/
lemma runCalls_counter :
    ∀ (calls : List PCall) (s : YPState),
      0 ≤ s.highPriorityCount →
      balancedFrom s.highPriorityCount calls = true →
      s.highPriorityCount + (entersCount calls : Int) ≤ 2 ^ 31 - 1 →
      (runCalls calls s).highPriorityCount = s.highPriorityCount + netOpen calls
  | [], s, _, _, _ => by simp [runCalls_nil, netOpen, entersCount, exitsCount]
  | PCall.enter :: r, s, h0, hbal, hN => by
    have hcnt : (entersCount (PCall.enter :: r) : Int) = entersCount r + 1 := by
      simp [entersCount]
    have hlt : s.highPriorityCount + 1 < 2 ^ 31 := by
      have : (0 : Int) ≤ entersCount r := Int.ofNat_nonneg _
      omega
    have hw : wrap32 (s.highPriorityCount + 1) = s.highPriorityCount + 1 :=
      wrap32_eq_self (by omega) hlt
    have hstep : (EnterHighPriority s).1.highPriorityCount = s.highPriorityCount + 1 := by
      rw [enter_counter, hw]
    have hbal' : balancedFrom (s.highPriorityCount + 1) r = true := hbal
    have hih := runCalls_counter r (EnterHighPriority s).1
      (by omega) (by rw [hstep]; exact hbal') (by rw [hstep]; omega)
    rw [runCalls_cons]
    simp only [hih, hstep, netOpen, entersCount, exitsCount]
    push_cast
    ring
  | PCall.exit :: r, s, h0, hbal, hN => by
    have hb : (decide (0 < s.highPriorityCount) &&
        balancedFrom (s.highPriorityCount - 1) r) = true := hbal
    rw [Bool.and_eq_true] at hb
    obtain ⟨h1, hbal'⟩ := hb
    have hpos : 0 < s.highPriorityCount := of_decide_eq_true h1
    have hcnt : (entersCount (PCall.exit :: r) : Int) = entersCount r := by
      simp [entersCount]
    have hlt : s.highPriorityCount < 2 ^ 31 := by
      have : (0 : Int) ≤ entersCount r := Int.ofNat_nonneg _
      omega
    have hstep : (ExitHighPriority s).1.highPriorityCount = s.highPriorityCount - 1 :=
      exit_counter_of_pos s hpos hlt
    have hih := runCalls_counter r (ExitHighPriority s).1
      (by omega) (by rw [hstep]; exact hbal') (by rw [hstep]; omega)
    rw [runCalls_cons]
    simp only [hih, hstep, netOpen, entersCount, exitsCount]
    push_cast
    ring

lemma maybeYield_state (s : YPState) : (MaybeYield s).1 = s := by
  unfold MaybeYield
  split <;> rfl

lemma applyOp_counter_mem (op : Op) (s : YPState)
    (h : inRange32 s.highPriorityCount) :
    inRange32 (applyOp op s).1.highPriorityCount := by
  obtain ⟨hlo, hhi⟩ := h
  cases op with
  | enterHP =>
    exact wrap32_mem _
  | exitHP =>
    simp only [applyOp, ExitHighPriority]
    split
    · exact wrap32_mem _
    · split
      · constructor <;> [norm_num; norm_num]
      · exact wrap32_mem _
  | maybeYield => simp only [applyOp, maybeYield_state]; exact ⟨hlo, hhi⟩
  | maybeYieldFast =>
    simp only [applyOp, MaybeYieldFast]
    split <;> exact ⟨hlo, hhi⟩
  | setHighPriority b => exact ⟨hlo, hhi⟩
  | setTraceFunc b => exact ⟨hlo, hhi⟩
  | setDefaultYieldDuration d => exact ⟨hlo, hhi⟩
  | setSpinWaitIterations n => exact ⟨hlo, hhi⟩

lemma runOps_counter_mem (ops : List Op) :
    ∀ (s : YPState), inRange32 s.highPriorityCount →
      inRange32 (runOps ops s).highPriorityCount := by
  induction ops with
  | nil => intro s h; exact h
  | cons op r ih =>
    intro s h
    exact ih _ (applyOp_counter_mem op s h)

lemma runOps_cons (op : Op) (r : List Op) (s : YPState) :
    runOps (op :: r) s = runOps r (applyOp op s).1 := rfl

/-- The only effect list containing a broadcast that any operation can emit
is `ExitHighPriority`'s one-to-zero branch. -/
lemma applyOp_broadcast_iff (op : Op) (s : YPState)
    (h : inRange32 s.highPriorityCount) :
    Effect.broadcast ∈ (applyOp op s).2 ↔
      op = Op.exitHP ∧ s.highPriorityCount = 1 ∧
        (applyOp op s).1.highPriorityCount = 0 := by
  cases op with
  | exitHP =>
    simp only [applyOp, ExitHighPriority]
    by_cases hz : wrap32 (s.highPriorityCount - 1) = 0
    · have hone : s.highPriorityCount = 1 := (wrap32_sub_one_eq_zero_iff h).mp hz
      have h0 : wrap32 0 = 0 := by decide
      simp [hz, hone, h0]
    · have hne : s.highPriorityCount ≠ 1 := by
        intro hone
        exact hz ((wrap32_sub_one_eq_zero_iff h).mpr hone)
      split
      · exact absurd (by assumption) hz
      · split <;> simp [hne]
  | enterHP => simp [applyOp, EnterHighPriority]
  | maybeYield =>
    simp only [applyOp, MaybeYield]
    split <;> simp
  | maybeYieldFast =>
    simp only [applyOp, MaybeYieldFast]
    split <;> simp
  | setHighPriority b => simp [applyOp]
  | setTraceFunc b => simp [applyOp]
  | setDefaultYieldDuration d => simp [applyOp]
  | setSpinWaitIterations n => simp [applyOp]

lemma waitIfActive_no_broadcast :
    ∀ (obs : List Int) (es : List Effect), WaitIfActive obs = some es →
      Effect.broadcast ∉ es := by
  intro obs
  induction obs with
  | nil => intro es h; simp [WaitIfActive] at h
  | cons c r ih =>
    intro es h
    by_cases hc : 0 < c
    · simp only [WaitIfActive, if_pos hc, Option.map_eq_some'] at h
      obtain ⟨es', hes', rfl⟩ := h
      have := ih es' hes'
      simp [this]
    · simp only [WaitIfActive, if_neg hc, Option.some.injEq] at h
      subst h
      simp

lemma fastFallback_no_broadcast :
    ∀ (obs : List Int) (es : List Effect), fastFallback obs = some es →
      Effect.broadcast ∉ es := by
  intro obs
  induction obs with
  | nil => intro es h; simp [fastFallback] at h
  | cons c r ih =>
    intro es h
    by_cases hc : 0 < c
    · simp only [fastFallback, if_pos hc, Option.map_eq_some'] at h
      obtain ⟨es', hes', rfl⟩ := h
      have := ih es' hes'
      simp [this]
    · simp only [fastFallback, if_neg hc, Option.some.injEq] at h
      subst h
      simp

lemma waitFastAux_no_broadcast :
    ∀ (n : Nat) (obs : List Int) (es : List Effect),
      waitFastAux n obs = some es → Effect.broadcast ∉ es := by
  intro n
  induction n with
  | zero =>
    intro obs es h
    simp only [waitFastAux, Option.map_eq_some'] at h
    obtain ⟨es', hes', rfl⟩ := h
    have := fastFallback_no_broadcast obs es' hes'
    simp [this]
  | succ m ih =>
    intro obs es h
    cases obs with
    | nil => simp [waitFastAux] at h
    | cons c r =>
      by_cases hc : c = 0
      · simp only [waitFastAux, if_pos hc, Option.some.injEq] at h
        subst h
        simp
      · simp only [waitFastAux, if_neg hc, Option.map_eq_some'] at h
        obtain ⟨es', hes', rfl⟩ := h
        have := ih r es' hes'
        simp [this]

lemma fastFallback_isSome_eq (obs : List Int) :
    (fastFallback obs).isSome = (WaitIfActive obs).isSome := by
  induction obs with
  | nil => rfl
  | cons c r ih =>
    by_cases hc : 0 < c
    · simp [fastFallback, WaitIfActive, if_pos hc, ih]
    · simp [fastFallback, WaitIfActive, if_neg hc]

lemma waitFastAux_isSome_eq :
    ∀ (n : Nat) (obs : List Int), (∀ c ∈ obs, 0 ≤ c) →
      (waitFastAux n obs).isSome = (WaitIfActive obs).isSome := by
  intro n
  induction n with
  | zero =>
    intro obs _
    simp [waitFastAux, fastFallback_isSome_eq]
  | succ m ih =>
    intro obs h
    cases obs with
    | nil => rfl
    | cons c r =>
      by_cases hc : c = 0
      · subst hc
        simp [waitFastAux, WaitIfActive]
      · have hpos : 0 < c := by
          have := h c (List.mem_cons_self c r)
          omega
        have hr : ∀ x ∈ r, 0 ≤ x := fun x hx => h x (List.mem_cons_of_mem c hx)
        simp [waitFastAux, if_neg hc, WaitIfActive, if_pos hpos, ih r hr]

lemma waitFastAux_no_lock_of_zero_within :
    ∀ (n : Nat) (obs : List Int),
      (obs.take n).any (fun c => decide (c = 0)) = true →
      ∃ es, waitFastAux n obs = some es ∧ Effect.lock ∉ es := by
  intro n
  induction n with
  | zero => intro obs h; simp at h
  | succ m ih =>
    intro obs h
    cases obs with
    | nil => simp at h
    | cons c r =>
      by_cases hc : c = 0
      · refine ⟨[], ?_, by simp⟩
        simp [waitFastAux, hc]
      · simp only [List.take_succ_cons, List.any_cons, Bool.or_eq_true,
          decide_eq_true_eq] at h
        rcases h with h | h
        · exact absurd h hc
        · obtain ⟨es, hes, hnl⟩ := ih r h
          refine ⟨Effect.gosched :: es, ?_, by simp [hnl]⟩
          simp [waitFastAux, if_neg hc, hes]

lemma waitIfActive_isSome_iff_zero (obs : List Int) (h : ∀ c ∈ obs, 0 ≤ c) :
    (WaitIfActive obs).isSome = obs.any (fun c => decide (c = 0)) := by
  induction obs with
  | nil => rfl
  | cons c r ih =>
    have hc0 : 0 ≤ c := h c (List.mem_cons_self c r)
    have hr : ∀ x ∈ r, 0 ≤ x := fun x hx => h x (List.mem_cons_of_mem c hx)
    by_cases hc : 0 < c
    · have : ¬(c = 0) := by omega
      simp [WaitIfActive, if_pos hc, ih hr, this]
    · have : c = 0 := by omega
      simp [WaitIfActive, if_neg hc, this]

lemma waitCtx_cases (e : CtxError) :
    ∀ (outs : List SelectOutcome),
      ((WaitIfActiveWithContext e outs).1 = some CtxResult.ok ↔
        zeroTickFirst outs = true) ∧
      ((WaitIfActiveWithContext e outs).1 = some (CtxResult.err e) ↔
        ctxDoneFirst outs = true) ∧
      (∀ e', (WaitIfActiveWithContext e outs).1 = some (CtxResult.err e') →
        e' = e) := by
  intro outs
  induction outs with
  | nil => simp [WaitIfActiveWithContext, zeroTickFirst, ctxDoneFirst]
  | cons o r ih =>
    obtain ⟨ih1, ih2, ih3⟩ := ih
    cases o with
    | ctxDone =>
      refine ⟨?_, ?_, ?_⟩ <;>
        simp [WaitIfActiveWithContext, zeroTickFirst, ctxDoneFirst]
    | tick c =>
      by_cases hc : c = 0
      · refine ⟨?_, ?_, ?_⟩ <;>
          simp [WaitIfActiveWithContext, zeroTickFirst, ctxDoneFirst, hc]
      · refine ⟨?_, ?_, ?_⟩
        · simpa [WaitIfActiveWithContext, zeroTickFirst, hc] using ih1
        · simpa [WaitIfActiveWithContext, ctxDoneFirst, hc] using ih2
        · intro e' he'
          apply ih3 e'
          simpa [WaitIfActiveWithContext, hc] using he'

/-! ## Claim theorems -/

/-- C1, counterexample: the two-call sequence exit-then-enter has N = 1
enters, M = 1 ≤ N exits and net-open count 0, yet `IsHighPriorityActive`
reports true afterwards — the clamp absorbed the early exit, so the later
enter is unmatched by the net count.  The claim as stated, quantifying over
every interleaving, is therefore false. -/
theorem enterExit_net_count_counterexample :
    entersCount [PCall.exit, PCall.enter] = 1 ∧
    exitsCount [PCall.exit, PCall.enter] = 1 ∧
    netOpen [PCall.exit, PCall.enter] = 0 ∧
    IsHighPriorityActive (runCalls [PCall.exit, PCall.enter] initState) = true := by
  refine ⟨by decide, by decide, by decide, by decide⟩

/-- C1, amended: for every sequence of enter/exit calls in which no prefix
contains more exits than enters (each exit matches an earlier enter) and
whose number of enters fits in int32, `IsHighPriorityActive` is true exactly
when the net-open count is positive, and once the exits match the enters the
counter is exactly zero. -/
theorem enterExit_net_count_amended (calls : List PCall)
    (hbal : balancedFrom 0 calls = true)
    (hN : (entersCount calls : Int) ≤ 2 ^ 31 - 1) :
    (IsHighPriorityActive (runCalls calls initState) = true ↔
      0 < netOpen calls) ∧
    (exitsCount calls = entersCount calls →
      (runCalls calls initState).highPriorityCount = 0) := by
  have h0 : initState.highPriorityCount = 0 := rfl
  have h := runCalls_counter calls initState (by rw [h0])
    (by rw [h0]; exact hbal) (by rw [h0]; omega)
  have hcnt : (runCalls calls initState).highPriorityCount = netOpen calls := by
    rw [h, h0]; ring
  constructor
  · simp [IsHighPriorityActive, hcnt]
  · intro he
    rw [hcnt, netOpen, he]
    ring

theorem enterExit_net_count_amended_witness :
    balancedFrom 0 [PCall.enter, PCall.exit] = true ∧
    ((IsHighPriorityActive (runCalls [PCall.enter, PCall.exit] initState) = true ↔
        0 < netOpen [PCall.enter, PCall.exit]) ∧
      (exitsCount [PCall.enter, PCall.exit] = entersCount [PCall.enter, PCall.exit] →
        (runCalls [PCall.enter, PCall.exit] initState).highPriorityCount = 0)) :=
  ⟨by decide,
   enterExit_net_count_amended [PCall.enter, PCall.exit] (by decide) (by decide)⟩

/-- C2: from any state in which the counter is zero, `ExitHighPriority`
leaves the counter at zero, emits no effect at all (in particular it does not
broadcast the wait gate and surfaces nothing to the caller), and
`IsHighPriorityActive` reports false afterwards. -/
theorem exit_at_zero_self_heals (s : YPState) (h : s.highPriorityCount = 0) :
    (ExitHighPriority s).1.highPriorityCount = 0 ∧
    (ExitHighPriority s).2 = [] ∧
    IsHighPriorityActive (ExitHighPriority s).1 = false := by
  have hw : wrap32 (s.highPriorityCount - 1) = -1 := by rw [h]; decide
  have h1 : ¬wrap32 (s.highPriorityCount - 1) = 0 := by rw [hw]; decide
  have h2 : wrap32 (s.highPriorityCount - 1) < 0 := by rw [hw]; decide
  have hx : ExitHighPriority s = ({ s with highPriorityCount := 0 }, []) := by
    simp only [ExitHighPriority, if_neg h1, if_pos h2]
  rw [hx]
  exact ⟨rfl, rfl, rfl⟩

theorem exit_at_zero_self_heals_witness :
    initState.highPriorityCount = 0 ∧
    ((ExitHighPriority initState).1.highPriorityCount = 0 ∧
     (ExitHighPriority initState).2 = [] ∧
     IsHighPriorityActive (ExitHighPriority initState).1 = false) :=
  ⟨rfl, exit_at_zero_self_heals initState rfl⟩

/-- C3 (code bug): even with a trace callback installed, a full
enter / yield-while-active / exit round produces zero trace-callback
invocations — no function of the package ever calls `traceYieldEvent`, even
though `traceYieldEvent` itself would invoke the installed callback (last
conjunct).  The claim (and the package's own tests) expect at least three
events here. -/
theorem trace_handler_never_invoked (s : YPState) :
    (SetTraceFunc true s).traceInstalled = true ∧
    countTraceCalls (EnterHighPriority (SetTraceFunc true s)).2 = 0 ∧
    countTraceCalls (MaybeYield (EnterHighPriority (SetTraceFunc true s)).1).2 = 0 ∧
    countTraceCalls
      (ExitHighPriority (MaybeYield (EnterHighPriority (SetTraceFunc true s)).1).1).2 = 0 ∧
    traceYieldEvent (SetTraceFunc true s) "high_priority_active" 0 =
      [Effect.traceCall "high_priority_active"] := by
  refine ⟨rfl, rfl, ?_, ?_, rfl⟩
  · unfold MaybeYield
    split <;> rfl
  · simp only [ExitHighPriority]
    split
    · rfl
    · split <;> rfl

/-- C4: `MaybeYield` leaves the state untouched; when `IsHighPriorityActive`
is true it yields the processor once and then sleeps for the configured
`DefaultYieldDuration`, and when it is false it performs no effect at all. -/
theorem maybeYield_yields_iff_active (s : YPState) :
    MaybeYield s =
      (s, if IsHighPriorityActive s
          then [Effect.gosched, Effect.sleep s.defaultYieldDuration]
          else []) := by
  by_cases h : 0 < s.highPriorityCount <;>
    simp [MaybeYield, IsHighPriorityActive, h]

/-- C5: `WaitIfActiveWithContext` returns success exactly when a counter load
of zero happens before the context's done branch is taken, returns the
context's own error exactly when the done branch is taken before any zero
load, and never returns any other error kind. -/
theorem waitCtx_success_or_cancel (e : CtxError) (outs : List SelectOutcome) :
    ((WaitIfActiveWithContext e outs).1 = some CtxResult.ok ↔
      zeroTickFirst outs = true) ∧
    (∀ e', (WaitIfActiveWithContext e outs).1 = some (CtxResult.err e') ↔
      (e' = e ∧ ctxDoneFirst outs = true)) := by
  obtain ⟨h1, h2, h3⟩ := waitCtx_cases e outs
  refine ⟨h1, fun e' => ⟨fun he' => ?_, fun ⟨hee, hd⟩ => ?_⟩⟩
  · have hee := h3 e' he'
    subst hee
    exact ⟨rfl, h2.mp he'⟩
  · subst hee
    exact h2.mpr hd

theorem waitCtx_success_or_cancel_witness :
    (WaitIfActiveWithContext CtxError.deadlineExceeded [SelectOutcome.ctxDone]).1 =
      some (CtxResult.err CtxError.deadlineExceeded) :=
  ((waitCtx_success_or_cancel CtxError.deadlineExceeded
      [SelectOutcome.ctxDone]).2 CtxError.deadlineExceeded).mpr ⟨rfl, rfl⟩

/-- C6: `MaybeYieldWithContext` with an already-fired context returns the
context's error with no yield and no other effect; with a live context it
returns success and performs exactly the effects of `MaybeYield`, leaving
the state unchanged. -/
theorem maybeYieldCtx_spec (d : Bool) (e : CtxError) (s : YPState) :
    (d = true → MaybeYieldWithContext d e s = (CtxResult.err e, s, [])) ∧
    (d = false →
      MaybeYieldWithContext d e s = (CtxResult.ok, s, (MaybeYield s).2)) := by
  constructor
  · intro h; subst h; rfl
  · intro h; subst h
    simp [MaybeYieldWithContext, maybeYield_state]

theorem maybeYieldCtx_spec_witness :
    MaybeYieldWithContext true CtxError.canceled initState =
      (CtxResult.err CtxError.canceled, initState, []) ∧
    MaybeYieldWithContext false CtxError.canceled initState =
      (CtxResult.ok, initState, (MaybeYield initState).2) :=
  ⟨(maybeYieldCtx_spec true CtxError.canceled initState).1 rfl,
   (maybeYieldCtx_spec false CtxError.canceled initState).2 rfl⟩

/-- C7: under nonnegative counter observations, `WaitIfActiveFast` returns
without ever acquiring the wait-gate lock whenever a zero is observed within
the spin budget, it terminates exactly when `WaitIfActive` terminates on the
same observations, and that common completion condition is the counter being
observed at zero. -/
theorem waitFast_spin_then_block (spin : Int) (obs : List Int)
    (h : ∀ c ∈ obs, 0 ≤ c) :
    ((obs.take spin.toNat).any (fun c => decide (c = 0)) = true →
      ∃ es, WaitIfActiveFast spin obs = some es ∧ Effect.lock ∉ es) ∧
    (WaitIfActiveFast spin obs).isSome = (WaitIfActive obs).isSome ∧
    (WaitIfActive obs).isSome = obs.any (fun c => decide (c = 0)) := by
  exact ⟨fun hz => waitFastAux_no_lock_of_zero_within spin.toNat obs hz,
    waitFastAux_isSome_eq spin.toNat obs h,
    waitIfActive_isSome_iff_zero obs h⟩

theorem waitFast_spin_then_block_witness :
    (∃ es, WaitIfActiveFast 2 [1, 0] = some es ∧ Effect.lock ∉ es) ∧
    (WaitIfActiveFast 2 [1, 0]).isSome = (WaitIfActive [1, 0]).isSome :=
  ⟨(waitFast_spin_then_block 2 [1, 0] (by decide)).1 (by decide),
   (waitFast_spin_then_block 2 [1, 0] (by decide)).2.1⟩

/-- C8: in every state reachable by a sequence of operations from the initial
state, an operation emits a wait-gate broadcast exactly when it is
`ExitHighPriority` and its decrement takes the counter from exactly one to
exactly zero; and neither blocking wait primitive ever emits a broadcast. -/
theorem broadcast_only_one_to_zero :
    (∀ (ops : List Op) (op : Op),
      Effect.broadcast ∈ (applyOp op (runOps ops initState)).2 ↔
        op = Op.exitHP ∧ (runOps ops initState).highPriorityCount = 1 ∧
          (applyOp op (runOps ops initState)).1.highPriorityCount = 0) ∧
    (∀ (obs : List Int) (es : List Effect),
      WaitIfActive obs = some es → Effect.broadcast ∉ es) ∧
    (∀ (spin : Int) (obs : List Int) (es : List Effect),
      WaitIfActiveFast spin obs = some es → Effect.broadcast ∉ es) := by
  refine ⟨fun ops op => ?_, waitIfActive_no_broadcast,
    fun spin obs es hs => waitFastAux_no_broadcast spin.toNat obs es hs⟩
  exact applyOp_broadcast_iff op _
    (runOps_counter_mem ops initState (by constructor <;> decide))

theorem broadcast_only_one_to_zero_witness :
    Effect.broadcast ∈ (applyOp Op.exitHP (runOps [Op.enterHP] initState)).2 ∧
    Effect.broadcast ∉ ([] : List Effect) ∧
    Effect.broadcast ∉
      ([Effect.gosched, Effect.lock, Effect.unlock] : List Effect) :=
  ⟨(broadcast_only_one_to_zero.1 [Op.enterHP] Op.exitHP).mpr
      ⟨rfl, by decide, by decide⟩,
   broadcast_only_one_to_zero.2.1 [0] [] (by decide),
   broadcast_only_one_to_zero.2.2 1 [1, 0]
     [Effect.gosched, Effect.lock, Effect.unlock] (by decide)⟩

/-- C9: the self-priority flag is a last-write-wins process-wide boolean:
reading immediately after any write returns the written value, reading after
any sequence of writes returns the last one, the default before any write is
false, writing it does not change the signal counter, and reading it does
not depend on the signal counter. -/
theorem selfPriority_flag_spec :
    (∀ (s : YPState) (b : Bool), GetHighPriority (SetHighPriority b s) = b) ∧
    GetHighPriority initState = false ∧
    (∀ (s : YPState) (bs : List Bool) (b : Bool),
      GetHighPriority (applySets (bs ++ [b]) s) = b) ∧
    (∀ (s : YPState) (b : Bool),
      (SetHighPriority b s).highPriorityCount = s.highPriorityCount) ∧
    (∀ (s : YPState) (c : Int),
      GetHighPriority { s with highPriorityCount := c } = GetHighPriority s) := by
  refine ⟨fun s b => rfl, rfl, fun s bs b => ?_, fun s b => rfl, fun s c => rfl⟩
  simp [applySets, List.foldl_append, SetHighPriority, GetHighPriority]

/-- C10: when the context's done branch is the first resolved outcome of the
polling loop — which is the case whenever the token fired before the call,
since `ctx.Done()` is then ready at entry while the first ticker tick only
arrives after one polling interval — `WaitIfActiveWithContext` returns the
context's error and performs no counter load at all, so a zero counter at
entry cannot produce a success result. -/
theorem waitCtx_prefired_token (e : CtxError) (outs : List SelectOutcome)
    (h : outs.head? = some SelectOutcome.ctxDone) :
    WaitIfActiveWithContext e outs = (some (CtxResult.err e), []) := by
  cases outs with
  | nil => simp at h
  | cons o r =>
    cases o with
    | ctxDone => rfl
    | tick c => simp at h

theorem waitCtx_prefired_token_witness :
    [SelectOutcome.ctxDone].head? = some SelectOutcome.ctxDone ∧
    WaitIfActiveWithContext CtxError.canceled [SelectOutcome.ctxDone] =
      (some (CtxResult.err CtxError.canceled), []) :=
  ⟨rfl, waitCtx_prefired_token CtxError.canceled [SelectOutcome.ctxDone] rfl⟩

end YieldPoint
